import Mathlib

/-!
Verification development for a retrieval-augmented-generation service:
a shallow embedding of its configuration layer (`app/config.py`), chunker
(`app/services/chunker.py`), vector-store adapter (`app/services/vector_store.py`),
reranker (`app/services/reranker.py`) and RAG chain (`app/services/rag_chain.py`),
together with theorems settling the specification claims about them.

Modelling conventions:
* Python `float` scores and distances are modelled as `ℚ`.  `round(x, 4)` is
  modelled as `round4` (round to 4 decimal digits); the tie-breaking mode of
  Python's `round` (half-to-even) differs from Mathlib's `round` (half-up) only
  at exact half-way points, which none of the claims depend on.
* External collaborators (the cross-encoder, the embedding model, ChromaDB's
  nearest-neighbour query, the LLM) are passed in as function parameters; the
  embedded functions are exactly the repository's own glue code around them.
* Python lists are `List`, `str` is `String` (or `List Char` where indexwise
  reasoning is needed), `None` defaults are `Option`.
-/

namespace RagSvc

/-- Embedding of `app/config.py` `Settings`: the pydantic model declares typed
fields with defaults and *no* custom validators, so the fields relevant to the
claims are plain integers.  (Host/model-name string fields are omitted: no claim
mentions them and they carry no constraints.) -/
structure Settings where
  chunk_size : Int := 512
  chunk_overlap : Int := 50
  top_k : Int := 5
  reranker_initial_k : Int := 20
deriving DecidableEq, Repr

/-- Embedding of constructing `Settings(...)` at startup (`config.py`,
`settings = Settings()`).  Pydantic validates *types* only; `config.py` defines
no range validator for `chunk_size`, `chunk_overlap`, `top_k` or
`reranker_initial_k`, so construction from any integers succeeds.  The
`Option` codomain records where a rejected configuration would surface
(`none`); the source never produces it. -/
def mkSettings (chunk_size chunk_overlap top_k reranker_initial_k : Int) :
    Option Settings :=
  some { chunk_size := chunk_size, chunk_overlap := chunk_overlap,
         top_k := top_k, reranker_initial_k := reranker_initial_k }

/-- The defaults of `config.py` (no environment overrides). -/
def defaultSettings : Settings := {}

/-- Embedding of the dataclass `SearchResult` (`vector_store.py`). -/
structure SearchResult where
  content : String
  doc_name : String
  chunk_id : Int
  page : Int
  score : ℚ
deriving DecidableEq, Repr

/-- Python's `round(x, 4)`: round to four decimal digits. -/
def round4 (x : ℚ) : ℚ := (round (x * 10000) : ℚ) / 10000

/-- The spec's `clamp(x, lo, hi)`; the source writes it `max(lo, min(hi, x))`. -/
def clamp (x lo hi : ℚ) : ℚ := max lo (min hi x)

/-- Embedding of `reranker.py` lines 147 and 156: the score transform applied
to one raw cross-encoder score,
`round(max(0.0, min(1.0, (score + 5) / 10)), 4)`. -/
def normalize_score (raw : ℚ) : ℚ := round4 (max 0 (min 1 ((raw + 5) / 10)))

/-- Embedding of the Python idiom `k = top_k or settings.top_k` used by
`search` (`vector_store.py` line 161), `rerank` (`reranker.py` line 123) and
`ask` (`rag_chain.py` line 178): `None` and `0` are falsy and fall back to the
configured default; every other integer (negatives included) is kept. -/
def effective_k (top_k : Option Int) (s : Settings) : Int :=
  match top_k with
  | none => s.top_k
  | some t => if t = 0 then s.top_k else t

/-- Embedding of the Python slice `l[:k]` for an arbitrary integer `k`:
a nonnegative stop takes the first `k` elements, a negative stop drops the
last `|k|` (clamped at the ends). -/
def pySliceTo (k : Int) (l : List α) : List α :=
  if 0 ≤ k then l.take k.toNat else l.take ((l.length : Int) + k).toNat

/-- The comparator realised by `reranked_results.sort(key=lambda x: x.score,
reverse=True)` (`reranker.py` line 161): `a` may precede `b` iff
`b.score ≤ a.score`; Python's sort is stable, modelled by `List.mergeSort`. -/
def scoreDescLE (a b : SearchResult) : Bool := b.score ≤ a.score

/-- The rescoring loop of `rerank` (`reranker.py` lines 143-158) as a named
list transform: every candidate is rebuilt with the normalized cross-encoder
score, all other fields copied. -/
def rescored (scorer : String → String → ℚ) (query : String)
    (results : List SearchResult) : List SearchResult :=
  results.map fun r =>
    { content := r.content, doc_name := r.doc_name, chunk_id := r.chunk_id,
      page := r.page, score := normalize_score (scorer query r.content) }

/-- Embedding of `rerank` (`reranker.py` lines 100-166).  `scorer` stands for
the cross-encoder collaborator `reranker.predict` applied to one
`(query, content)` pair; `s` is the module-level `settings` singleton.
The rescoring loop is the named transform `rescored`. -/
def rerank (scorer : String → String → ℚ) (query : String)
    (results : List SearchResult) (top_k : Option Int) (s : Settings) :
    List SearchResult :=
  if results.isEmpty then []
  else
    let k := effective_k top_k s
    if (results.length : Int) ≤ k then results
    else
      let reranked := rescored scorer query results
      let sorted := reranked.mergeSort scoreDescLE
      pySliceTo k sorted

/-- A ChromaDB metadata dictionary as read back by `search`
(`vector_store.py` lines 197-199): each key is looked up with `.get` and a
default, so each field is optional. -/
structure Metadata where
  doc_name : Option String
  chunk_id : Option Int
  page : Option Int
deriving DecidableEq, Repr

/-- Embedding of the per-entry mapping inside `search` (`vector_store.py`
lines 188-202): one `(document, metadata, distance)` triple from the index
becomes a `SearchResult` with `similarity = 1 - distance/2` rounded to four
digits. -/
def entry_to_result (doc : String) (meta : Metadata) (distance : ℚ) :
    SearchResult :=
  { content := doc
    doc_name := meta.doc_name.getD "unknown"
    chunk_id := meta.chunk_id.getD (-1)
    page := meta.page.getD 0
    score := round4 (1 - distance / 2) }

/-- Embedding of `search` (`vector_store.py` lines 145-204).  `count` is the
collaborator's `collection.count()`; `query_fn query k` stands for the
flattened `(documents, metadatas, distances)` triples ChromaDB returns for
`collection.query(..., n_results=k)`. -/
def search (count : Nat)
    (query_fn : String → Int → List (String × Metadata × ℚ))
    (query : String) (top_k : Option Int) (s : Settings) : List SearchResult :=
  let k := effective_k top_k s
  if count = 0 then []
  else (query_fn query k).map fun e => entry_to_result e.1 e.2.1 e.2.2

/-- Embedding of the dataclass `Document` (`document_loader.py`).  The source
keeps `doc_name`/`page` in a metadata dict; both loaders populate exactly these
two keys, so the dict is embedded as a closed record. -/
structure Document where
  content : String
  doc_name : String
  page : Int
deriving DecidableEq, Repr

/-- The metadata dict attached to a `Chunk` by `create_chunks`
(`chunker.py` line 93): the source document's `doc_name`/`page` plus the
assigned `chunk_id`. -/
structure ChunkMeta where
  doc_name : String
  page : Int
  chunk_id : Int
deriving DecidableEq, Repr

/-- Embedding of the dataclass `Chunk` (`chunker.py`). -/
structure Chunk where
  content : String
  metadata : ChunkMeta
deriving DecidableEq, Repr

/-- The chunks one document contributes in `create_chunks` (`chunker.py`
lines 85-99): each text piece from `splitter.split_text(doc.content)` becomes a
`Chunk` carrying the document's metadata and the next counter value. -/
def chunks_of_doc (split : String → List String) (d : Document) (cid : Int) :
    List Chunk :=
  (split d.content).enum.map fun p =>
    { content := p.2
      metadata := { doc_name := d.doc_name, page := d.page,
                    chunk_id := cid + p.1 } }

/-- The document loop of `create_chunks` with the running global counter made
explicit: the counter advances by one per produced chunk, so the next document
starts at `cid` plus this document's chunk count. -/
def create_chunks_from (split : String → List String) :
    List Document → Int → List Chunk
  | [], _ => []
  | d :: ds, cid =>
      chunks_of_doc split d cid ++
        create_chunks_from split ds (cid + (split d.content).length)

/-- Embedding of `create_chunks` (`chunker.py` lines 51-105).  `split` stands
for the external `RecursiveCharacterTextSplitter.split_text` collaborator
(configured from settings); the counter starts at `0`
(`chunk_id = 0  # Global chunk ID across all documents`). -/
def create_chunks (split : String → List String) (documents : List Document) :
    List Chunk :=
  create_chunks_from split documents 0

/-- Embedding of Python's `str.rfind(" ")` on a character list: the highest
index holding a space, or `-1` when there is none. -/
def rfind_space : List Char → Int
  | [] => -1
  | c :: cs =>
      let r := rfind_space cs
      if 0 ≤ r then r + 1
      else if c = ' ' then 0 else -1

/-- The ellipsis marker `"..."` appended by `create_snippet`. -/
def sDots : List Char := ['.', '.', '.']

/-- Embedding of `create_snippet` (`rag_chain.py` lines 126-148) over the
content's character sequence.  The guard `last_space > max_length * 0.7` is
modelled exactly over `ℚ` as `7 * max_length < 10 * last_space`; at the only
call site's `max_length = 150` the float product `150 * 0.7` is exactly `105.0`,
so the rational comparison agrees with the source's float comparison. -/
def create_snippet (content : List Char) (max_length : Nat) : List Char :=
  if content.length ≤ max_length then content
  else
    let truncated := content.take max_length
    let last_space := rfind_space truncated
    let truncated :=
      if 7 * (max_length : Int) < 10 * last_space then
        truncated.take last_space.toNat
      else truncated
    truncated ++ sDots

/-- Embedding of the dataclass `Source` (`rag_chain.py`). -/
structure Source where
  doc : String
  chunk_id : Int
  score : ℚ
  snippet : List Char
deriving DecidableEq, Repr

/-- Embedding of the dataclass `RAGResponse` (`rag_chain.py`). -/
structure RAGResponse where
  answer : String
  sources : List Source
deriving DecidableEq, Repr

/-- Embedding of `format_context` (`rag_chain.py` lines 98-123). -/
def format_context (results : List SearchResult) : String :=
  if results.isEmpty then "No relevant documents found."
  else
    String.intercalate "\n\n---\n\n" <| results.map fun r =>
      ("[Source: " ++ r.doc_name ++
        (if 0 < r.page then ", Page: " ++ toString r.page else "") ++ "]")
        ++ "\n" ++ r.content

/-- The fixed answer `ask` returns when retrieval yields nothing
(`rag_chain.py` lines 184-188). -/
def no_docs_answer : String :=
  "I don't know - no documents have been ingested yet. Please run the /ingest endpoint first."

/-- `RAG_PROMPT_TEMPLATE.format(context=..., question=...)`
(`rag_chain.py` lines 43-56, 194): the template's fixed text around the two
interpolation points. -/
def rag_prompt (context question : String) : String :=
  "You are a helpful assistant that answers questions based on the provided context.\n\nINSTRUCTIONS:\n1. Answer the question using ONLY the information in the context below\n2. If the context doesn't contain enough information to answer, say \"I don't know based on the available documents\"\n3. Be concise and direct in your answers\n4. Do not make up information that isn't in the context\n\nCONTEXT:\n"
    ++ context ++ "\n\nQUESTION: " ++ question ++ "\n\nANSWER:"

/-- Embedding of `ask` (`rag_chain.py` lines 161-222).  `count`/`query_fn`
parameterise the vector-store collaborator as in `search`; `llm prompt` stands
for the Ollama chat call's answer text. -/
def ask (count : Nat)
    (query_fn : String → Int → List (String × Metadata × ℚ))
    (llm : String → String) (question : String) (top_k : Option Int)
    (s : Settings) : RAGResponse :=
  let k := effective_k top_k s
  let search_results := search count query_fn question (some k) s
  if search_results.isEmpty then
    { answer := no_docs_answer, sources := [] }
  else
    let context := format_context search_results
    let prompt := rag_prompt context question
    let answer := llm prompt
    { answer := answer
      sources := search_results.map fun r =>
        { doc := r.doc_name, chunk_id := r.chunk_id, score := r.score,
          snippet := create_snippet r.content.data 150 } }

/-- A concrete scorer standing in for the cross-encoder in concrete
evaluations. -/
def exScorer : String → String → ℚ := fun _ _ => 0

/-- A concrete search result for concrete evaluations. -/
def exResult : SearchResult :=
  { content := "c", doc_name := "d", chunk_id := 1, page := 0, score := 1/2 }

/-- A second concrete search result for concrete evaluations. -/
def exResult2 : SearchResult :=
  { content := "e", doc_name := "d", chunk_id := 2, page := 0, score := 1/4 }

/-- A 156-character content whose 150-character display prefix has its last
space exactly at index 105, i.e. exactly at 70% of the default display length
150. -/
def ex9C : List Char := List.replicate 105 'a' ++ ' ' :: List.replicate 50 'b'

/-! ## Helper lemmas -/

theorem round4_nonneg {x : ℚ} (h : 0 ≤ x) : 0 ≤ round4 x := by
  unfold round4
  have h1 : (0 : ℤ) ≤ round (x * 10000) := by
    rw [round_eq]
    apply Int.floor_nonneg.mpr
    nlinarith
  exact div_nonneg (by exact_mod_cast h1) (by norm_num)

theorem round4_le_one {x : ℚ} (h : x ≤ 1) : round4 x ≤ 1 := by
  unfold round4
  have h1 : round (x * 10000) ≤ 10000 := by
    rw [round_eq]
    have : x * 10000 + 1 / 2 ≤ (10000 : ℤ) + 1 / 2 := by push_cast; nlinarith
    calc ⌊x * 10000 + 1 / 2⌋ ≤ ⌊((10000 : ℤ) : ℚ) + 1 / 2⌋ :=
          Int.floor_le_floor (by push_cast; nlinarith)
      _ = 10000 + ⌊(1 / 2 : ℚ)⌋ := Int.floor_int_add _ _
      _ = 10000 := by norm_num
  rw [div_le_one (by norm_num)]
  exact_mod_cast h1

theorem scoreDescLE_trans (a b c : SearchResult) :
    scoreDescLE a b → scoreDescLE b c → scoreDescLE a c := by
  simp only [scoreDescLE, decide_eq_true_eq]
  exact fun h1 h2 => le_trans h2 h1

theorem scoreDescLE_total (a b : SearchResult) :
    scoreDescLE a b || scoreDescLE b a := by
  simp only [scoreDescLE, Bool.or_eq_true, decide_eq_true_eq]
  exact le_total b.score a.score

/-! ## Claim theorems -/

/-- C1: for every query, candidate list and `final_k`, if the candidate list
has at most `final_k` elements then `rerank` returns it unchanged — same
elements, same order, same scores — for any scorer and any settings. -/
theorem C1_rerank_short_circuit (scorer : String → String → ℚ) (query : String)
    (results : List SearchResult) (final_k : Int) (s : Settings)
    (h : (results.length : Int) ≤ final_k) :
    rerank scorer query results (some final_k) s = results := by
  by_cases he : results = []
  · simp [rerank, he]
  · have hpos : 0 < results.length := List.length_pos.mpr he
    have hknz : final_k ≠ 0 := by
      have : (0 : Int) < results.length := by exact_mod_cast hpos
      omega
    simp [rerank, List.isEmpty_iff, he, effective_k, hknz, h]

/-- Witness for C1: a one-element candidate list with `final_k = 3` is
returned unchanged. -/
theorem C1_rerank_short_circuit_witness :
    ((([exResult] : List SearchResult).length : Int) ≤ 3)
    ∧ rerank exScorer "q" [exResult] (some 3) defaultSettings = [exResult] :=
  ⟨by decide, C1_rerank_short_circuit exScorer "q" [exResult] 3 defaultSettings
    (by decide)⟩

/-- C2: the reranker's normalized score is `round(clamp((raw+5)/10, 0, 1), 4)`;
the transform is deterministic (equal raw scores give equal normalized scores)
and its value always lies in `[0, 1]`. -/
theorem C2_normalize_score (r r2 : ℚ) (hr : r2 = r) :
    normalize_score r = round4 (clamp ((r + 5) / 10) 0 1)
    ∧ normalize_score r2 = normalize_score r
    ∧ 0 ≤ normalize_score r ∧ normalize_score r ≤ 1 := by
  subst hr
  refine ⟨rfl, rfl, ?_, ?_⟩
  · exact round4_nonneg (le_max_left _ _)
  · exact round4_le_one (max_le (by norm_num) (min_le_left _ _))

/-- Witness for C2 at the raw score `2`. -/
theorem C2_normalize_score_witness :
    (2 : ℚ) = 2
    ∧ (normalize_score 2 = round4 (clamp ((2 + 5) / 10) 0 1)
        ∧ normalize_score 2 = normalize_score 2
        ∧ 0 ≤ normalize_score 2 ∧ normalize_score 2 ≤ 1) :=
  ⟨rfl, C2_normalize_score 2 2 rfl⟩

/-- C4: for a returned index entry with cosine distance `d ∈ [0, 2]`, the
retrieval mapping produces a `SearchResult` scored `round4 (1 - d/2)`;
distance `0` gives score `1`, distance `2` gives score `0`, and the score is
always within `[0, 1]`. -/
theorem C4_distance_to_score (doc : String) (meta : Metadata) (d : ℚ)
    (h0 : 0 ≤ d) (h2 : d ≤ 2) :
    (entry_to_result doc meta d).score = round4 (1 - d / 2)
    ∧ (d = 0 → (entry_to_result doc meta d).score = 1)
    ∧ (d = 2 → (entry_to_result doc meta d).score = 0)
    ∧ 0 ≤ (entry_to_result doc meta d).score
    ∧ (entry_to_result doc meta d).score ≤ 1 := by
  refine ⟨rfl, ?_, ?_, ?_, ?_⟩
  · rintro rfl
    show round4 (1 - 0 / 2) = 1
    norm_num [round4, round_eq]
  · rintro rfl
    show round4 (1 - 2 / 2) = 0
    norm_num [round4, round_eq]
  · exact round4_nonneg (by linarith)
  · exact round4_le_one (by linarith)

/-- Witness for C4 at distance `1/2` (score `0.75`). -/
theorem C4_distance_to_score_witness :
    (0 : ℚ) ≤ 1 / 2 ∧ (1 / 2 : ℚ) ≤ 2
    ∧ ((entry_to_result "c" ⟨some "d", some 1, some 0⟩ (1 / 2)).score
          = round4 (1 - (1 / 2) / 2)
        ∧ ((1 / 2 : ℚ) = 0 →
            (entry_to_result "c" ⟨some "d", some 1, some 0⟩ (1 / 2)).score = 1)
        ∧ ((1 / 2 : ℚ) = 2 →
            (entry_to_result "c" ⟨some "d", some 1, some 0⟩ (1 / 2)).score = 0)
        ∧ 0 ≤ (entry_to_result "c" ⟨some "d", some 1, some 0⟩ (1 / 2)).score
        ∧ (entry_to_result "c" ⟨some "d", some 1, some 0⟩ (1 / 2)).score ≤ 1) :=
  ⟨by norm_num, by norm_num,
    C4_distance_to_score "c" ⟨some "d", some 1, some 0⟩ (1 / 2)
      (by norm_num) (by norm_num)⟩

/-- C5 counterexample: `chunk_size = 0` violates the claimed constraint
`max_size > 0`, yet startup configuration construction accepts it — nothing is
rejected, so the claimed fail-fast startup validation does not exist. -/
theorem C5_counterexample :
    (0 : Int) ≤ 0
    ∧ mkSettings 0 0 5 20
        = some { chunk_size := 0, chunk_overlap := 0, top_k := 5,
                 reranker_initial_k := 20 } :=
  ⟨le_refl 0, rfl⟩

/-- C5 amended: startup configuration performs no range validation at all —
`Settings` construction accepts every integer `chunk_size`, `chunk_overlap`,
`top_k` and `reranker_initial_k`, including `max_size ≤ 0`, `overlap < 0` and
`overlap ≥ max_size`. -/
theorem C5_amended_no_startup_validation (cs co tk rk : Int) :
    mkSettings cs co tk rk
      = some { chunk_size := cs, chunk_overlap := co, top_k := tk,
               reranker_initial_k := rk } := rfl

/-- C6: retrieval against an index holding zero entries returns the empty
list (for every query, every `top_k` and every collaborator response), and
`ask` then reports the distinguished "no documents ingested" answer with no
sources. -/
theorem C6_empty_index (count : Nat)
    (query_fn : String → Int → List (String × Metadata × ℚ))
    (llm : String → String) (question : String) (top_k : Option Int)
    (s : Settings) (h : count = 0) :
    search count query_fn question top_k s = []
    ∧ ask count query_fn llm question top_k s
        = { answer := no_docs_answer, sources := [] } := by
  subst h
  constructor
  · simp [search]
  · simp [ask, search]

/-- Witness for C6: empty index, `k = 5`, a collaborator that would return one
entry if asked. -/
theorem C6_empty_index_witness :
    (0 : Nat) = 0
    ∧ (search 0 (fun _ _ => [("c", ⟨some "d", some 1, some 0⟩, 0)]) "q"
          (some 5) defaultSettings = []
        ∧ ask 0 (fun _ _ => [("c", ⟨some "d", some 1, some 0⟩, 0)])
            (fun _ => "a") "q" (some 5) defaultSettings
          = { answer := no_docs_answer, sources := [] }) :=
  ⟨rfl, C6_empty_index 0 (fun _ _ => [("c", ⟨some "d", some 1, some 0⟩, 0)])
    (fun _ => "a") "q" (some 5) defaultSettings rfl⟩

/-- C3 counterexample: with `final_k = 0` and one candidate the claim's
hypothesis `len(candidates) > final_k` holds, yet the output is not truncated
to `final_k = 0` elements: `0` is treated as unset, the default `k = 5`
applies, and the single candidate is returned. -/
theorem C3_counterexample :
    (0 : Int) < (([exResult] : List SearchResult).length : Int)
    ∧ rerank exScorer "q" [exResult] (some 0) defaultSettings ≠ [] := by
  exact ⟨by decide, by decide⟩

/-- C3 amended: for every rerank call with `1 ≤ final_k` and more candidates
than `final_k`, the output is the rescored candidate list sorted by descending
normalized score — a permutation of the rescored list, pairwise descending,
with equal-score candidates keeping their arrival order — truncated to exactly
`final_k` elements. -/
theorem C3_amended_sort_truncate (scorer : String → String → ℚ) (query : String)
    (results : List SearchResult) (final_k : Int) (s : Settings)
    (h1 : 1 ≤ final_k) (h2 : final_k < (results.length : Int)) :
    ∃ sorted : List SearchResult,
      rerank scorer query results (some final_k) s = sorted.take final_k.toNat
      ∧ sorted.Perm (rescored scorer query results)
      ∧ sorted.Pairwise (fun a b => b.score ≤ a.score)
      ∧ (∀ a b : SearchResult,
          List.Sublist [a, b] (rescored scorer query results) →
          a.score = b.score → List.Sublist [a, b] sorted)
      ∧ (rerank scorer query results (some final_k) s).length = final_k.toNat := by
  have hne : results ≠ [] := by
    intro h
    rw [h] at h2
    simp at h2
    omega
  have hknz : final_k ≠ 0 := by omega
  have hnle : ¬ ((results.length : Int) ≤ final_k) := by omega
  have hrw : rerank scorer query results (some final_k) s
      = pySliceTo final_k
          ((rescored scorer query results).mergeSort scoreDescLE) := by
    simp [rerank, effective_k, List.isEmpty_iff, hne, hknz, hnle]
  refine ⟨(rescored scorer query results).mergeSort scoreDescLE,
    ?_, ?_, ?_, ?_, ?_⟩
  · rw [hrw]
    simp [pySliceTo, (by omega : (0 : Int) ≤ final_k)]
  · exact List.mergeSort_perm _ _
  · exact (List.sorted_mergeSort scoreDescLE_trans scoreDescLE_total _).imp
      (fun h => by simpa [scoreDescLE] using h)
  · intro a b hsub heq
    exact List.pair_sublist_mergeSort scoreDescLE_trans scoreDescLE_total
      (by simp [scoreDescLE, heq]) hsub
  · rw [hrw]
    simp only [pySliceTo, if_pos (by omega : (0 : Int) ≤ final_k),
      List.length_take, List.length_mergeSort, rescored, List.length_map]
    omega

/-- Witness for C3 amended: two candidates, `final_k = 1`. -/
theorem C3_amended_sort_truncate_witness :
    (1 : Int) ≤ 1
    ∧ (1 : Int) < (([exResult, exResult2] : List SearchResult).length : Int)
    ∧ ∃ sorted : List SearchResult,
        rerank exScorer "q" [exResult, exResult2] (some 1) defaultSettings
          = sorted.take (1 : Int).toNat
        ∧ sorted.Perm (rescored exScorer "q" [exResult, exResult2])
        ∧ sorted.Pairwise (fun a b => b.score ≤ a.score)
        ∧ (∀ a b : SearchResult,
            List.Sublist [a, b] (rescored exScorer "q" [exResult, exResult2]) →
            a.score = b.score → List.Sublist [a, b] sorted)
        ∧ (rerank exScorer "q" [exResult, exResult2] (some 1)
            defaultSettings).length = (1 : Int).toNat :=
  ⟨by decide, by decide,
    C3_amended_sort_truncate exScorer "q" [exResult, exResult2] 1
      defaultSettings (by decide) (by decide)⟩

/-- C8: every candidate in a rerank output carries the `content`, `doc_name`,
`chunk_id` and `page` of an input candidate; only `score` is rewritten (the
record type itself guarantees no field is added or removed). -/
theorem C8_rerank_frame (scorer : String → String → ℚ) (query : String)
    (results : List SearchResult) (top_k : Option Int) (s : Settings)
    (r : SearchResult) (h : r ∈ rerank scorer query results top_k s) :
    ∃ r0 ∈ results, r.content = r0.content ∧ r.doc_name = r0.doc_name
      ∧ r.chunk_id = r0.chunk_id ∧ r.page = r0.page := by
  simp only [rerank] at h
  split at h
  · simp at h
  · split at h
    · exact ⟨r, h, rfl, rfl, rfl, rfl⟩
    · have h1 : r ∈ (rescored scorer query results).mergeSort scoreDescLE := by
        unfold pySliceTo at h
        split at h <;> exact List.mem_of_mem_take h
      rw [List.mem_mergeSort] at h1
      simp only [rescored, List.mem_map] at h1
      obtain ⟨r0, hr0, hr0eq⟩ := h1
      refine ⟨r0, hr0, ?_, ?_, ?_, ?_⟩ <;> rw [← hr0eq]

/-- Witness for C8: the single output of a short-circuited call keeps all
fields of its input candidate. -/
theorem C8_rerank_frame_witness :
    (exResult ∈ rerank exScorer "q" [exResult] none defaultSettings)
    ∧ ∃ r0 ∈ [exResult], exResult.content = r0.content
        ∧ exResult.doc_name = r0.doc_name ∧ exResult.chunk_id = r0.chunk_id
        ∧ exResult.page = r0.page :=
  ⟨by simp [rerank, effective_k, defaultSettings],
    C8_rerank_frame exScorer "q" [exResult] none defaultSettings exResult
      (by simp [rerank, effective_k, defaultSettings])⟩

/-- C10: passing `top_k = 0` to `search` or `rerank` does not request zero
results: `0` is falsy in `top_k or settings.top_k`, so both behave exactly as
with `top_k = None`, and with a positive configured default a nonempty
candidate list reranks to a nonempty output. -/
theorem C10_topk_zero_fallback (scorer : String → String → ℚ) (query : String)
    (results : List SearchResult) (count : Nat)
    (query_fn : String → Int → List (String × Metadata × ℚ)) (s : Settings)
    (h1 : results ≠ []) (h2 : 0 < s.top_k) :
    rerank scorer query results (some 0) s = rerank scorer query results none s
    ∧ search count query_fn query (some 0) s
        = search count query_fn query none s
    ∧ rerank scorer query results (some 0) s ≠ [] := by
  refine ⟨by simp [rerank, effective_k], by simp [search, effective_k], ?_⟩
  by_cases hle : (results.length : Int) ≤ s.top_k
  · have hrw : rerank scorer query results (some 0) s = results := by
      simp [rerank, effective_k, List.isEmpty_iff, h1, hle]
    rw [hrw]
    exact h1
  · have hrw : rerank scorer query results (some 0) s
        = pySliceTo s.top_k
            ((rescored scorer query results).mergeSort scoreDescLE) := by
      simp [rerank, effective_k, List.isEmpty_iff, h1, hle]
    rw [hrw]
    apply List.ne_nil_of_length_pos
    have hpos := List.length_pos.mpr h1
    simp only [pySliceTo, if_pos h2.le, List.length_take,
      List.length_mergeSort, rescored, List.length_map]
    omega

/-- Witness for C10: one candidate, default settings. -/
theorem C10_topk_zero_fallback_witness :
    ([exResult] : List SearchResult) ≠ []
    ∧ (0 : Int) < defaultSettings.top_k
    ∧ (rerank exScorer "q" [exResult] (some 0) defaultSettings
          = rerank exScorer "q" [exResult] none defaultSettings
        ∧ search 0 (fun _ _ => []) "q" (some 0) defaultSettings
            = search 0 (fun _ _ => []) "q" none defaultSettings
        ∧ rerank exScorer "q" [exResult] (some 0) defaultSettings ≠ []) :=
  ⟨by decide, by decide,
    C10_topk_zero_fallback exScorer "q" [exResult] 0 (fun _ _ => [])
      defaultSettings (by decide) (by decide)⟩

theorem chunks_of_doc_ids (split : String → List String) (d : Document)
    (cid : Int) :
    (chunks_of_doc split d cid).map (fun c => c.metadata.chunk_id)
      = (List.range (split d.content).length).map
          (fun i : ℕ => cid + (i : Int)) :=
  calc List.map (fun c => c.metadata.chunk_id) (chunks_of_doc split d cid)
      = List.map (fun i : ℕ => cid + (i : Int))
          (List.map Prod.fst (split d.content).enum) := by
        unfold chunks_of_doc
        rw [List.map_map, List.map_map]
        rfl
    _ = List.map (fun i : ℕ => cid + (i : Int))
          (List.range (split d.content).length) := by rw [List.enum_map_fst]

theorem create_chunks_from_ids (split : String → List String) :
    ∀ (docs : List Document) (cid : Int),
    (create_chunks_from split docs cid).map (fun c => c.metadata.chunk_id)
      = (List.range ((docs.map fun d => (split d.content).length).sum)).map
          (fun i : ℕ => cid + (i : Int))
  | [], cid => by simp [create_chunks_from]
  | d :: ds, cid => by
      rw [create_chunks_from, List.map_append, chunks_of_doc_ids,
        create_chunks_from_ids split ds, List.map_cons, List.sum_cons,
        List.range_add, List.map_append, List.map_map]
      refine congrArg₂ (· ++ ·) rfl ?_
      refine List.map_congr_left fun i _ => ?_
      show (cid + ((split d.content).length : Int)) + (i : Int)
        = cid + ((((split d.content).length + i : ℕ)) : Int)
      push_cast
      ring

theorem create_chunks_from_proj (split : String → List String) :
    ∀ (docs : List Document) (cid : Int),
    (create_chunks_from split docs cid).map
        (fun c => (c.content, c.metadata.doc_name, c.metadata.page))
      = docs.flatMap fun d =>
          (split d.content).map fun t => (t, d.doc_name, d.page)
  | [], _ => by simp [create_chunks_from]
  | d :: ds, cid => by
      rw [create_chunks_from, List.map_append,
        create_chunks_from_proj split ds, List.flatMap_cons]
      refine congrArg₂ (· ++ ·) ?_ rfl
      calc List.map (fun c => (c.content, c.metadata.doc_name, c.metadata.page))
            (chunks_of_doc split d cid)
          = List.map (fun t => (t, d.doc_name, d.page))
              (List.map Prod.snd (split d.content).enum) := by
            unfold chunks_of_doc
            rw [List.map_map, List.map_map]
            rfl
        _ = List.map (fun t => (t, d.doc_name, d.page)) (split d.content) := by
            rw [List.enum_map_snd]

/-- C7: the chunker assigns `chunk_id`s from one shared counter across the
whole call: over the entire output they are strictly increasing in production
order (hence pairwise distinct), and every chunk carries its source document's
`doc_name` and `page`, in document-then-position order. -/
theorem C7_chunk_ids_global (split : String → List String)
    (docs : List Document) :
    ((create_chunks split docs).map (fun c => c.metadata.chunk_id)).Pairwise
        (· < ·)
    ∧ ((create_chunks split docs).map (fun c => c.metadata.chunk_id)).Pairwise
        (· ≠ ·)
    ∧ (create_chunks split docs).map
          (fun c => (c.content, c.metadata.doc_name, c.metadata.page))
        = docs.flatMap fun d =>
            (split d.content).map fun t => (t, d.doc_name, d.page) := by
  have hlt : ((create_chunks split docs).map
      (fun c => c.metadata.chunk_id)).Pairwise (· < ·) := by
    rw [create_chunks, create_chunks_from_ids, List.pairwise_map]
    exact (List.pairwise_lt_range _).imp (by intro a b h; omega)
  exact ⟨hlt, hlt.imp ne_of_lt, create_chunks_from_proj split docs 0⟩

theorem rfind_space_lt_length : ∀ l : List Char, rfind_space l < l.length
  | [] => by simp [rfind_space]
  | c :: cs => by
      have ih := rfind_space_lt_length cs
      simp only [rfind_space, List.length_cons]
      split
      · push_cast
        omega
      · split <;> (push_cast; omega)

theorem rfind_space_neg :
    ∀ (l : List Char), rfind_space l < 0 → ∀ i : ℕ, l.get? i ≠ some ' '
  | [], _, i => by simp
  | c :: cs, h, i => by
      simp only [rfind_space] at h
      by_cases hr : 0 ≤ rfind_space cs
      · rw [if_pos hr] at h
        omega
      · rw [if_neg hr] at h
        by_cases hc : c = ' '
        · rw [if_pos hc] at h
          omega
        · match i with
          | 0 => simpa using hc
          | i + 1 =>
              rw [List.get?_cons_succ]
              exact rfind_space_neg cs (by omega) i

theorem rfind_space_spec : ∀ (l : List Char), 0 ≤ rfind_space l →
    l.get? (rfind_space l).toNat = some ' '
    ∧ ∀ i : ℕ, rfind_space l < (i : Int) → l.get? i ≠ some ' '
  | [], h => by simp [rfind_space] at h
  | c :: cs, h => by
      by_cases hr : 0 ≤ rfind_space cs
      · have hcons : rfind_space (c :: cs) = rfind_space cs + 1 := by
          simp only [rfind_space]
          rw [if_pos hr]
        obtain ⟨hsp, hlast⟩ := rfind_space_spec cs hr
        rw [hcons]
        constructor
        · have ht : (rfind_space cs + 1).toNat = (rfind_space cs).toNat + 1 := by
            omega
          rw [ht, List.get?_cons_succ]
          exact hsp
        · intro i hi
          match i with
          | 0 => exact absurd hi (by omega)
          | i + 1 =>
              rw [List.get?_cons_succ]
              exact hlast i (by omega)
      · by_cases hc : c = ' '
        · have hcons : rfind_space (c :: cs) = 0 := by
            simp only [rfind_space]
            rw [if_neg hr, if_pos hc]
          rw [hcons]
          constructor
          · simpa using hc
          · intro i hi
            match i with
            | 0 => exact absurd hi (by omega)
            | i + 1 =>
                rw [List.get?_cons_succ]
                exact rfind_space_neg cs (by omega) i
        · have hcons : rfind_space (c :: cs) = -1 := by
            simp only [rfind_space]
            rw [if_neg hr, if_neg hc]
          rw [hcons] at h
          omega

theorem rfind_space_ge (l : List Char) (i : ℕ) (h : l.get? i = some ' ') :
    (i : Int) ≤ rfind_space l := by
  by_cases hr : 0 ≤ rfind_space l
  · by_contra hlt
    exact (rfind_space_spec l hr).2 i (by omega) h
  · exact absurd h (rfind_space_neg l (by omega) i)

set_option maxRecDepth 4000 in
/-- C9 counterexample: a 156-character content whose 150-character prefix has
its last space exactly at index `105 = 0.7 * 150`.  The claim's boundary rule
("at or after 70% of the maximum length") selects index 105, but the source's
strict comparison `last_space > max_length * 0.7` rejects it and hard-cuts at
150 instead, so the output differs from the claimed one. -/
theorem C9_counterexample :
    150 < ex9C.length
    ∧ ex9C.get? 105 = some ' '
    ∧ 7 * 150 ≤ 10 * 105
    ∧ (∀ i ∈ List.range 150, 105 < i → ex9C.get? i ≠ some ' ')
    ∧ create_snippet ex9C 150 ≠ ex9C.take 105 ++ sDots :=
  ⟨by decide, by decide, by decide, by decide, by decide⟩

/-- C9 amended: content at most the maximum display length is returned
unchanged; longer content is truncated at the last word boundary lying
*strictly after* 70% of the maximum length when one exists in the truncated
prefix, and hard-cut at the maximum length otherwise, with the ellipsis marker
appended. -/
theorem C9_amended_snippet (content : List Char) (m : Nat) :
    (content.length ≤ m → create_snippet content m = content)
    ∧ (m < content.length →
        (∃ j : ℕ, j < m ∧ content.get? j = some ' ' ∧ 7 * m < 10 * j
          ∧ (∀ i : ℕ, j < i → i < m → content.get? i ≠ some ' ')
          ∧ create_snippet content m = content.take j ++ sDots)
        ∨ ((∀ i : ℕ, i < m → 7 * m < 10 * i → content.get? i ≠ some ' ')
          ∧ create_snippet content m = content.take m ++ sDots)) := by
  constructor
  · intro h
    simp [create_snippet, h]
  · intro h
    have hnle : ¬ (content.length ≤ m) := by omega
    have hlen : (content.take m).length = m := by
      simp [List.length_take]
      omega
    by_cases hg : 7 * (m : Int) < 10 * rfind_space (content.take m)
    · left
      have hr0 : 0 ≤ rfind_space (content.take m) := by omega
      obtain ⟨hsp, hlast⟩ := rfind_space_spec _ hr0
      have hjlt : (rfind_space (content.take m)).toNat < m := by
        have hb := rfind_space_lt_length (content.take m)
        rw [hlen] at hb
        omega
      refine ⟨(rfind_space (content.take m)).toNat, hjlt, ?_, ?_, ?_, ?_⟩
      · rw [← List.get?_take hjlt]
        exact hsp
      · omega
      · intro i hji him
        rw [← List.get?_take him]
        exact hlast i (by omega)
      · simp only [create_snippet, if_neg hnle, if_pos hg]
        rw [List.take_take, Nat.min_eq_left (Nat.le_of_lt hjlt)]
    · right
      constructor
      · intro i him hth hsp
        have hge : (i : Int) ≤ rfind_space (content.take m) :=
          rfind_space_ge _ i (by rw [List.get?_take him]; exact hsp)
        omega
      · simp only [create_snippet, if_neg hnle, if_neg hg]

/-- Witness for C9 amended: short content is returned unchanged. -/
theorem C9_amended_snippet_witness :
    ("ab".data.length ≤ 4) ∧ create_snippet "ab".data 4 = "ab".data :=
  ⟨by decide, (C9_amended_snippet "ab".data 4).1 (by decide)⟩

end RagSvc
